import Mathlib

/-!
Verification of the SQLite-to-SQL exporter (`src/index.ts`).

Strings are modelled as `List Char`; JavaScript string operations
(`toLowerCase`, `toUpperCase`, `includes`, `replace`, template literals)
become the corresponding operations on character lists.  Fallible
asynchronous reads become `Except String` values, so a rejected promise
is an `Except.error` that aborts the surrounding computation exactly as
an `await` re-throw does.
-/

namespace DbConvert

/-- Lowercasing of a character sequence, modelling JavaScript
`String.prototype.toLowerCase` on the ASCII range (`src/index.ts:166`). -/
def lowerStr (s : List Char) : List Char := s.map Char.toLower

/-- Uppercasing of a character sequence, modelling JavaScript
`String.prototype.toUpperCase` on the ASCII range (`src/index.ts:177`). -/
def upperStr (s : List Char) : List Char := s.map Char.toUpper

/-- Embedding of `convertSQLiteType` (`src/index.ts:165-182`): the declared
type is lowered once and classified by substring tests in source order;
JavaScript `String.prototype.includes` is the infix relation `<:+:`. -/
def convertSQLiteType (sqliteType : List Char) : List Char :=
  if "int".data <:+: lowerStr sqliteType then "INT".data
  else if "text".data <:+: lowerStr sqliteType then "TEXT".data
  else if "real".data <:+: lowerStr sqliteType ∨ "float".data <:+: lowerStr sqliteType ∨
      "double".data <:+: lowerStr sqliteType then "DECIMAL(10,2)".data
  else if "blob".data <:+: lowerStr sqliteType then "BLOB".data
  else if "char".data <:+: lowerStr sqliteType then upperStr sqliteType
  else if "varchar".data <:+: lowerStr sqliteType then upperStr sqliteType
  else "TEXT".data

/-- The type-mapping priority list exactly as the specification words it
(six rules, the "char" rule covering "varchar", no separate varchar rule),
to be compared with the source function `convertSQLiteType`. -/
def convertSQLiteTypeSpec (sqliteType : List Char) : List Char :=
  if "int".data <:+: lowerStr sqliteType then "INT".data
  else if "text".data <:+: lowerStr sqliteType then "TEXT".data
  else if "real".data <:+: lowerStr sqliteType ∨ "float".data <:+: lowerStr sqliteType ∨
      "double".data <:+: lowerStr sqliteType then "DECIMAL(10,2)".data
  else if "blob".data <:+: lowerStr sqliteType then "BLOB".data
  else if "char".data <:+: lowerStr sqliteType then upperStr sqliteType
  else "TEXT".data

/-- The source mapper with its dedicated "varchar" branch removed
(`src/index.ts:178` deleted), used to show that branch is dead code. -/
def convertSQLiteTypeNoVarcharBranch (sqliteType : List Char) : List Char :=
  if "int".data <:+: lowerStr sqliteType then "INT".data
  else if "text".data <:+: lowerStr sqliteType then "TEXT".data
  else if "real".data <:+: lowerStr sqliteType ∨ "float".data <:+: lowerStr sqliteType ∨
      "double".data <:+: lowerStr sqliteType then "DECIMAL(10,2)".data
  else if "blob".data <:+: lowerStr sqliteType then "BLOB".data
  else if "char".data <:+: lowerStr sqliteType then upperStr sqliteType
  else "TEXT".data

/-- The single-quote character, U+0027. -/
def squote : Char := Char.ofNat 39

/-- The backquote character, U+0060. -/
def bquote : Char := Char.ofNat 96

/-- Embedding of the escaping step in `getInsertStatements`
(`src/index.ts:149`): every single-quote character is doubled, all other
characters pass through. -/
def escapeQuotes : List Char → List Char
  | [] => []
  | c :: rest =>
    if c = squote then squote :: squote :: escapeQuotes rest else c :: escapeQuotes rest

/-- Embedding of the text-value rendering in `getInsertStatements`
(`src/index.ts:149`): the escaped content wrapped in single quotes. -/
def renderTextValue (s : List Char) : List Char :=
  squote :: (escapeQuotes s ++ [squote])

/-- Inverse of quote doubling: each doubled single quote becomes one
single quote, all other characters pass through. -/
def unescapeQuotes : List Char → List Char
  | [] => []
  | [c] => [c]
  | c :: d :: rest =>
    if c = squote ∧ d = squote then squote :: unescapeQuotes rest
    else c :: unescapeQuotes (d :: rest)

/-- Parser for a single-quoted SQL text literal: strips the surrounding
quotes and un-doubles the content, refusing anything not of that shape. -/
def parseTextLiteral : List Char → Option (List Char)
  | [] => none
  | c :: rest =>
    if c = squote then
      if rest.getLast? = some squote then some (unescapeQuotes rest.dropLast) else none
    else none

/-- Embedding of the `ColumnInfo` interface (`src/index.ts:7-14`).  The
PRAGMA flags keep their numeric type; JavaScript truthiness of a number
is being nonzero. -/
structure ColumnInfo where
  cid : Int
  name : List Char
  type : List Char
  notnull : Int
  dflt_value : Option (List Char)
  pk : Int

/-- Embedding of one column definition line built inside
`getCreateTableSQL` (`src/index.ts:87-111`): quoted name, mapped type,
then NOT NULL, PRIMARY KEY / AUTO_INCREMENT and DEFAULT pieces under the
source conditions (notnull set and pk unset; pk set; the lowered declared type
containing "integer", `dflt_value !== null`). -/
def columnDef (col : ColumnInfo) : List Char :=
  "  `".data ++ col.name ++ "` ".data ++ convertSQLiteType col.type ++
    (if col.notnull ≠ 0 ∧ col.pk = 0 then " NOT NULL".data else []) ++
    (if col.pk ≠ 0 then
      " PRIMARY KEY".data ++
        (if "integer".data <:+: lowerStr col.type then " AUTO_INCREMENT".data else [])
    else []) ++
    (match col.dflt_value with
     | some v => " DEFAULT ".data ++ v
     | none => [])

/-- JavaScript `Array.prototype.join` on character-list strings. -/
def joinWith (sep : List Char) : List (List Char) → List Char
  | [] => []
  | [x] => x
  | x :: y :: xs => x ++ sep ++ joinWith sep (y :: xs)

/-- Embedding of `getCreateTableSQL` (`src/index.ts:82-114`) applied to
column metadata already read: the column lines joined by comma-newline
inside the CREATE TABLE template. -/
def getCreateTableSQL (tableName : List Char) (columns : List ColumnInfo) : List Char :=
  "CREATE TABLE `".data ++ tableName ++ "` (\n".data ++
    joinWith ",\n".data (columns.map columnDef) ++ "\n);".data

/-- The PRIMARY KEY / AUTO_INCREMENT piece of a column definition
(`src/index.ts:99-104`), named for use in lemmas. -/
def pkPart (col : ColumnInfo) : List Char :=
  if col.pk ≠ 0 then
    " PRIMARY KEY".data ++
      (if "integer".data <:+: lowerStr col.type then " AUTO_INCREMENT".data else [])
  else []

/-- The DEFAULT piece of a column definition (`src/index.ts:106-108`),
named for use in lemmas. -/
def dfltPart (col : ColumnInfo) : List Char :=
  match col.dflt_value with
  | some v => " DEFAULT ".data ++ v
  | none => []

/-- The primary-key BIGINT column used to refute C2 as stated. -/
def bigintPkCol : ColumnInfo := ⟨0, "id".data, "BIGINT".data, 0, none, 1⟩

/-- Runtime value of one cell under the dynamic typing of the source engine:
SQL NULL, a JavaScript string, or any other runtime value carried as the
text its JavaScript interpolation produces (numbers print their natural
decimal representation). -/
inductive SqlValue where
  | nullV : SqlValue
  | strV : List Char → SqlValue
  | rawV : List Char → SqlValue
deriving DecidableEq

/-- A row as `db.all` delivers it: a JavaScript object, i.e. an ordered
association list from column name to runtime value. -/
abbrev Row : Type := List (List Char × SqlValue)

/-- JavaScript `Object.keys`: the key order of the object. -/
def rowKeys (r : Row) : List (List Char) := r.map Prod.fst

/-- JavaScript property access `row[col]`. -/
def rowGet : Row → List Char → Option SqlValue
  | [], _ => none
  | (k, v) :: rest, key => if k = key then some v else rowGet rest key

/-- Rendering of one cell (`src/index.ts:144-151`): NULL unquoted for SQL
null, quoted-and-escaped for strings, the raw interpolation otherwise; a
key missing from a row interpolates as JavaScript `undefined`. -/
def renderCell (v : Option SqlValue) : List Char :=
  match v with
  | none => "undefined".data
  | some SqlValue.nullV => "NULL".data
  | some (SqlValue.strV s) => renderTextValue s
  | some (SqlValue.rawV s) => s

/-- One INSERT statement (`src/index.ts:142-157`) for a fixed column list:
quoted column names and the values of the row in that same order. -/
def renderInsert (tableName : List Char) (columns : List (List Char)) (row : Row) :
    List Char :=
  "INSERT INTO `".data ++ tableName ++ "` (".data ++
    joinWith ", ".data (columns.map (fun c => "`".data ++ c ++ "`".data)) ++
    ") VALUES (".data ++
    joinWith ", ".data (columns.map (fun c => renderCell (rowGet row c))) ++
    ");".data

/-- Embedding of `getInsertStatements` (`src/index.ts:125-163`) applied to
rows already read: zero rows yield no statements; otherwise the column
list is `Object.keys(rows[0])` and one INSERT is rendered per row. -/
def getInsertStatements (tableName : List Char) (rows : List Row) : List (List Char) :=
  match rows with
  | [] => []
  | r0 :: rest => (r0 :: rest).map (renderInsert tableName (rowKeys r0))

/-- SQLite LIKE match against the pattern `sqlite_%` (`src/index.ts:71`): LIKE is
case-insensitive on ASCII, `_` matches exactly one character and `%` any
sequence, so a name matches iff it has at least seven characters and its
first six lower to "sqlite". -/
def likeSqliteWildcard (name : List Char) : Bool :=
  decide (7 ≤ name.length) && decide (lowerStr (name.take 6) = "sqlite".data)

/-- The source database as the three exporter queries observe it: the
raw `sqlite_master` listing of the names whose type column says table
(`src/index.ts:69-73`), per-table column metadata (`PRAGMA table_info`,
`src/index.ts:116-123`) and per-table row scans (`SELECT *`,
`src/index.ts:127`); each read may fail, modelling a rejected promise. -/
structure SourceDB where
  master : Except (List Char) (List (List Char))
  columnInfo : List Char → Except (List Char) (List ColumnInfo)
  tableRows : List Char → Except (List Char) (List Row)

/-- Embedding of `getTables` (`src/index.ts:67-80`): the master names
filtered by NOT LIKE `sqlite_%` and ordered lexicographically by
`ORDER BY name` under the default BINARY collation (UTF-8 byte order,
which coincides with codepoint order). -/
def getTables (db : SourceDB) : Except (List Char) (List (List Char)) :=
  Except.map
    (fun names => List.insertionSort (· ≤ ·) (names.filter (fun n => ! likeSqliteWildcard n)))
    db.master

/-- The lines the export loop (`src/index.ts:39-57`) appends for one
table: table comment, CREATE statement and blank line, then, only when at
least one INSERT exists, the data comment, the INSERTs and another blank
line; the first failing read aborts. -/
def tableBlock (db : SourceDB) (t : List Char) :
    Except (List Char) (List (List Char)) :=
  match db.columnInfo t with
  | .error e => .error e
  | .ok cols =>
    match db.tableRows t with
    | .error e => .error e
    | .ok rows =>
      .ok (["-- Table: ".data ++ t, getCreateTableSQL t cols, []] ++
        (if 0 < (getInsertStatements t rows).length then
          ("-- Data for table: ".data ++ t) :: (getInsertStatements t rows ++ [[]])
        else []))

/-- Sequencing of the per-table reads in table order: the first rejected
promise aborts the whole loop (`src/index.ts:39-57`). -/
def mapExcept {α β ε : Type} (f : α → Except ε β) : List α → Except ε (List β)
  | [] => .ok []
  | t :: ts =>
    match f t with
    | .error e => .error e
    | .ok b =>
      match mapExcept f ts with
      | .error e => .error e
      | .ok bs => .ok (b :: bs)

/-- The global header (`src/index.ts:31-33`): fixed banner, the
generation-timestamp comment and a blank line; the timestamp
(`new Date().toISOString()`) is an input of the model. -/
def headerLines (now : List Char) : List (List Char) :=
  ["-- Exported from SQLite database".data, "-- Generated on ".data ++ now, []]

/-- All lines `export` accumulates (`src/index.ts:28-57`), or the first
read error. -/
def exportStatements (db : SourceDB) (now : List Char) :
    Except (List Char) (List (List Char)) :=
  match getTables db with
  | .error e => .error e
  | .ok tables =>
    match mapExcept (tableBlock db) tables with
    | .error e => .error e
    | .ok blocks => .ok (headerLines now ++ blocks.flatten)

/-- The whole run (`src/index.ts:25-65`): on success the accumulated lines
are joined with newlines and written once (`src/index.ts:60-61`); on
failure nothing is written.  The first component lists the file writes the
run performs, the second the reported outcome. -/
def exportRun (db : SourceDB) (now : List Char) :
    List (List Char) × Except (List Char) Unit :=
  match exportStatements db now with
  | .error e => ([], .error e)
  | .ok stmts => ([joinWith "\n".data stmts], .ok ())

/-- Recovery of the table name from a rendered CREATE TABLE statement:
the text between the backquote pair after the fixed prelude; anything not
of that shape parses as none. -/
def dropLiteral : List Char → List Char → Option (List Char)
  | [], s => some s
  | _ :: _, [] => none
  | c :: p, x :: s => if c = x then dropLiteral p s else none

/-- Name extraction from a table-definition statement. -/
def parseCreateName (s : List Char) : Option (List Char) :=
  match dropLiteral "CREATE TABLE `".data s with
  | some rest => some (rest.takeWhile (fun c => c ≠ bquote))
  | none => none

/-- The one-table, zero-row database used in witnesses. -/
def wDb : SourceDB :=
  ⟨.ok ["a".data], fun _ => .ok [⟨0, "x".data, "TEXT".data, 0, none, 0⟩],
    fun _ => .ok []⟩

/-- The table block `wDb` produces. -/
def wBody : List (List Char) :=
  ["-- Table: a".data,
    getCreateTableSQL "a".data [⟨0, "x".data, "TEXT".data, 0, none, 0⟩], []]

/-- The two-table database used in ordering witnesses. -/
def wDb2 : SourceDB :=
  ⟨.ok ["b".data, "a".data],
    fun _ => .ok [⟨0, "x".data, "TEXT".data, 0, none, 0⟩],
    fun _ => .ok []⟩

lemma char_infix_of_varchar {t : List Char}
    (h : "varchar".data <:+: t) : "char".data <:+: t :=
  List.IsInfix.trans (by decide) h

/-- C1: for every declared type string the source mapper agrees with the
six-rule priority list of the specification, in which a string containing
"char" (hence also any string containing "varchar") maps to the original
string uppercased, and anything unmatched maps to TEXT. -/
theorem convertSQLiteType_eq_spec (s : List Char) :
    convertSQLiteType s = convertSQLiteTypeSpec s := by
  unfold convertSQLiteType convertSQLiteTypeSpec
  split_ifs with h1 h2 h3 h4 h5 h6 <;> try rfl
  exact absurd (char_infix_of_varchar h6) h5

/-- C10: the dedicated "varchar" branch of the mapper is unreachable dead
code; removing it changes the result on no input, because a lowered string
containing "varchar" already contains "char" and is resolved earlier. -/
theorem convertSQLiteType_varcharBranch_dead (s : List Char) :
    convertSQLiteType s = convertSQLiteTypeNoVarcharBranch s := by
  unfold convertSQLiteType convertSQLiteTypeNoVarcharBranch
  split_ifs with h1 h2 h3 h4 h5 h6 <;> try rfl
  exact absurd (char_infix_of_varchar h6) h5

lemma escapeQuotes_eq_nil {s : List Char} (h : escapeQuotes s = []) : s = [] := by
  cases s with
  | nil => rfl
  | cons c rest =>
    simp only [escapeQuotes] at h
    split_ifs at h

lemma unescapeQuotes_escapeQuotes (s : List Char) :
    unescapeQuotes (escapeQuotes s) = s := by
  induction s with
  | nil => rfl
  | cons c rest ih =>
    by_cases hc : c = squote
    · subst hc
      simp [escapeQuotes, unescapeQuotes, ih]
    · cases h : escapeQuotes rest with
      | nil =>
        have hr : rest = [] := escapeQuotes_eq_nil h
        subst hr
        simp only [escapeQuotes, if_neg hc, unescapeQuotes]
      | cons d t =>
        have hstep : unescapeQuotes (c :: d :: t) = c :: unescapeQuotes (d :: t) := by
          simp only [unescapeQuotes,
            if_neg (show ¬(c = squote ∧ d = squote) from fun hand => hc hand.1)]
        rw [show escapeQuotes (c :: rest) = c :: (d :: t) by
          simp only [escapeQuotes, if_neg hc, h]]
        rw [hstep, ← h, ih]

/-- C3: text-value rendering round-trips: stripping the surrounding single
quotes from the rendered literal and un-doubling the doubled quotes
recovers the original string, for every string, including those containing
single quotes. -/
theorem parseTextLiteral_renderTextValue (s : List Char) :
    parseTextLiteral (renderTextValue s) = some s := by
  simp [renderTextValue, parseTextLiteral, List.getLast?_concat,
    List.dropLast_concat, unescapeQuotes_escapeQuotes]

lemma mem_of_infix_mem {c : Char} {t l : List Char}
    (hct : c ∈ t) (h : t <:+: l) : c ∈ l :=
  h.sublist.subset hct

lemma not_infix_of_not_mem {c : Char} {t l : List Char}
    (hct : c ∈ t) (hcl : c ∉ l) : ¬ t <:+: l :=
  fun h => hcl (mem_of_infix_mem hct h)

lemma pair_infix_append {a b : Char} {xs ys : List Char}
    (h : [a, b] <:+: xs ++ ys) :
    [a, b] <:+: xs ∨ [a, b] <:+: ys ∨
      (xs.getLast? = some a ∧ ys.head? = some b) := by
  induction xs with
  | nil => exact Or.inr (Or.inl h)
  | cons x xs ih =>
    rw [List.cons_append, List.infix_cons_iff] at h
    cases h with
    | inl hp =>
      rw [List.cons_prefix_cons] at hp
      obtain ⟨rfl, hb⟩ := hp
      obtain ⟨t, ht⟩ := hb
      cases xs with
      | nil =>
        right; right
        refine ⟨rfl, ?_⟩
        simp only [List.nil_append] at ht
        rw [← ht]
        rfl
      | cons x' xs' =>
        left
        have hbx : b = x' := by
          have := congrArg List.head? ht
          simpa using this
        subst hbx
        exact List.IsPrefix.isInfix ⟨xs', rfl⟩
    | inr hi =>
      rcases ih hi with h1 | h2 | h3
      · exact Or.inl (List.infix_cons h1)
      · exact Or.inr (Or.inl h2)
      · cases xs with
        | nil => exact absurd h3.1 (by simp)
        | cons y l =>
          right; right
          exact ⟨by rw [List.getLast?_cons_cons]; exact h3.1, h3.2⟩

lemma not_pair_infix_append {a b : Char} {xs ys : List Char}
    (hx : ¬ [a, b] <:+: xs) (hy : ¬ [a, b] <:+: ys)
    (hb : xs.getLast? ≠ some a ∨ ys.head? ≠ some b) :
    ¬ [a, b] <:+: xs ++ ys := by
  intro h
  rcases pair_infix_append h with h1 | h2 | h3
  · exact hx h1
  · exact hy h2
  · rcases hb with hb | hb
    · exact hb h3.1
    · exact hb h3.2

lemma columnDef_decomp (col : ColumnInfo) :
    columnDef col =
      "  `".data ++ (col.name ++ ("` ".data ++ (convertSQLiteType col.type ++
        ((if col.notnull ≠ 0 ∧ col.pk = 0 then " NOT NULL".data else []) ++
          (pkPart col ++ dfltPart col))))) := by
  simp [columnDef, pkPart, dfltPart, List.append_assoc]

lemma mem_ite_nil {c : Char} {P : Prop} [Decidable P] {l : List Char}
    (h : c ∈ if P then l else []) : P ∧ c ∈ l := by
  by_cases hp : P
  · rw [if_pos hp] at h; exact ⟨hp, h⟩
  · rw [if_neg hp] at h; cases h

lemma mem_underscore_pkPart {col : ColumnInfo} (h : '_' ∈ pkPart col) :
    col.pk ≠ 0 ∧ "integer".data <:+: lowerStr col.type := by
  unfold pkPart at h
  split_ifs at h with h1 h2
  · exact ⟨h1, h2⟩
  · exact absurd h (by decide)
  · exact absurd h (by decide)

lemma underscore_not_mem_columnDef {col : ColumnInfo}
    (hn : '_' ∉ col.name) (ht : '_' ∉ convertSQLiteType col.type)
    (hd : ∀ v, col.dflt_value = some v → '_' ∉ v)
    (hno : ¬ (col.pk ≠ 0 ∧ "integer".data <:+: lowerStr col.type)) :
    '_' ∉ columnDef col := by
  rw [columnDef_decomp]
  intro hmem
  simp only [List.mem_append] at hmem
  rcases hmem with h1 | h2 | h3 | h4 | h5 | h6 | h7
  · exact absurd h1 (by decide)
  · exact hn h2
  · exact absurd h3 (by decide)
  · exact ht h4
  · exact absurd (mem_ite_nil h5).2 (by decide)
  · exact hno (mem_underscore_pkPart h6)
  · cases hdv : col.dflt_value with
    | none =>
      rw [show dfltPart col = [] by simp [dfltPart, hdv]] at h7
      cases h7
    | some v =>
      rw [show dfltPart col = " DEFAULT ".data ++ v by simp [dfltPart, hdv]] at h7
      rcases List.mem_append.mp h7 with h7 | h7
      · exact absurd h7 (by decide)
      · exact hd v hdv h7

/-- C2 counterexample: the declared type BIGINT has integer affinity (the
mapper sends it to INT) and the primary-key flag is set, yet the rendered
column definition carries PRIMARY KEY without AUTO_INCREMENT, because the
source tests for the substring "integer" rather than "int". -/
theorem columnDef_bigintPk_no_autoincrement :
    convertSQLiteType bigintPkCol.type = "INT".data ∧
    bigintPkCol.pk ≠ 0 ∧
    " PRIMARY KEY".data <:+: columnDef bigintPkCol ∧
    ¬ " AUTO_INCREMENT".data <:+: columnDef bigintPkCol := by
  refine ⟨by decide, by decide, ?_, by decide⟩
  exact ⟨"  `id` INT".data, "".data, by decide⟩

/-- C2 (amended): the rendered column definition contains AUTO_INCREMENT
iff the primary-key flag is set and the lowered declared type contains the
substring "integer" (not merely "int"); every primary-key column carries
PRIMARY KEY; side conditions keep the underscore out of the text of the
descriptor itself so that AUTO_INCREMENT cannot occur accidentally. -/
theorem columnDef_autoincrement_iff (col : ColumnInfo)
    (hn : '_' ∉ col.name) (ht : '_' ∉ convertSQLiteType col.type)
    (hd : ∀ v, col.dflt_value = some v → '_' ∉ v) :
    (" AUTO_INCREMENT".data <:+: columnDef col ↔
      col.pk ≠ 0 ∧ "integer".data <:+: lowerStr col.type) ∧
    (col.pk ≠ 0 → " PRIMARY KEY".data <:+: columnDef col) := by
  constructor
  · constructor
    · intro h
      by_contra hno
      exact underscore_not_mem_columnDef hn ht hd hno (mem_of_infix_mem (by decide) h)
    · rintro ⟨hpk, hint⟩
      have hpkeq : pkPart col = " PRIMARY KEY".data ++ " AUTO_INCREMENT".data := by
        unfold pkPart
        rw [if_pos hpk, if_pos hint]
      refine ⟨"  `".data ++ (col.name ++ ("` ".data ++ (convertSQLiteType col.type ++
        ((if col.notnull ≠ 0 ∧ col.pk = 0 then " NOT NULL".data else []) ++
          " PRIMARY KEY".data)))), dfltPart col, ?_⟩
      rw [columnDef_decomp, hpkeq]
      simp [List.append_assoc]
  · intro hpk
    have hpkeq : pkPart col = " PRIMARY KEY".data ++
        (if "integer".data <:+: lowerStr col.type then " AUTO_INCREMENT".data else []) := by
      unfold pkPart
      rw [if_pos hpk]
    refine ⟨"  `".data ++ (col.name ++ ("` ".data ++ (convertSQLiteType col.type ++
      (if col.notnull ≠ 0 ∧ col.pk = 0 then " NOT NULL".data else [])))),
      (if "integer".data <:+: lowerStr col.type then " AUTO_INCREMENT".data else []) ++
        dfltPart col, ?_⟩
    rw [columnDef_decomp, hpkeq]
    simp [List.append_assoc]

/-- Witness: on an INTEGER primary-key column the amended C2 theorem
produces the AUTO_INCREMENT marker. -/
theorem columnDef_autoincrement_iff_witness :
    " AUTO_INCREMENT".data <:+: columnDef ⟨0, "id".data, "INTEGER".data, 0, none, 1⟩ :=
  (columnDef_autoincrement_iff ⟨0, "id".data, "INTEGER".data, 0, none, 1⟩
    (by decide) (by decide) (fun _ h => nomatch h)).1.mpr ⟨by decide, by decide⟩

lemma pkPart_noLL (col : ColumnInfo) : ¬ ['L', 'L'] <:+: pkPart col := by
  unfold pkPart
  split_ifs <;> decide

lemma pkPart_getLast_ne_L (col : ColumnInfo) :
    (pkPart col).getLast? ≠ some 'L' := by
  unfold pkPart
  split_ifs <;> decide

lemma dfltPart_noLL {col : ColumnInfo}
    (hd : ∀ v, col.dflt_value = some v → ¬ ['L', 'L'] <:+: v) :
    ¬ ['L', 'L'] <:+: dfltPart col := by
  cases hdv : col.dflt_value with
  | none =>
    rw [show dfltPart col = [] by simp [dfltPart, hdv]]
    decide
  | some v =>
    rw [show dfltPart col = " DEFAULT ".data ++ v by simp [dfltPart, hdv]]
    exact not_pair_infix_append (by decide) (hd v hdv) (Or.inl (by decide))

lemma or_some_ne {α : Type} {a b : α} {x : Option α} (h : a ≠ b) :
    (Option.or (some a) x) ≠ some b :=
  fun hcon => h (Option.some.inj hcon)

lemma pk_dflt_head_ne_L (col : ColumnInfo) :
    (pkPart col ++ dfltPart col).head? ≠ some 'L' := by
  rw [List.head?_append]
  have hc : ∀ y : Option Char, y = none ∨ y = some ' ' →
      ∀ z : Option Char, z = none ∨ z = some ' ' → (Option.or y z) ≠ some 'L' := by
    rintro y (rfl | rfl) z (rfl | rfl) <;> simp [Option.or]
  refine hc _ ?_ _ ?_
  · unfold pkPart
    split_ifs
    · exact Or.inr rfl
    · exact Or.inr rfl
    · exact Or.inl rfl
  · cases hdv : col.dflt_value with
    | none => exact Or.inl (by rw [show dfltPart col = [] by simp [dfltPart, hdv]]; rfl)
    | some v =>
      exact Or.inr (by rw [show dfltPart col = " DEFAULT ".data ++ v by simp [dfltPart, hdv]]; rfl)

lemma noLL_columnDef {col : ColumnInfo}
    (hn : ¬ ['L', 'L'] <:+: col.name)
    (ht : ¬ ['L', 'L'] <:+: convertSQLiteType col.type)
    (hd : ∀ v, col.dflt_value = some v → ¬ ['L', 'L'] <:+: v)
    (hflag : ¬ (col.notnull ≠ 0 ∧ col.pk = 0)) :
    ¬ ['L', 'L'] <:+: columnDef col := by
  have h1 : ¬ ['L', 'L'] <:+: (pkPart col ++ dfltPart col) :=
    not_pair_infix_append (pkPart_noLL col) (dfltPart_noLL hd)
      (Or.inl (pkPart_getLast_ne_L col))
  have h2 : ¬ ['L', 'L'] <:+:
      (convertSQLiteType col.type ++ (pkPart col ++ dfltPart col)) :=
    not_pair_infix_append ht h1 (Or.inr (pk_dflt_head_ne_L col))
  have h3 : ¬ ['L', 'L'] <:+: ("` ".data ++
      (convertSQLiteType col.type ++ (pkPart col ++ dfltPart col))) :=
    not_pair_infix_append (by decide) h2 (Or.inl (by decide))
  have h4 : ¬ ['L', 'L'] <:+: (col.name ++ ("` ".data ++
      (convertSQLiteType col.type ++ (pkPart col ++ dfltPart col)))) :=
    not_pair_infix_append hn h3
      (Or.inr (by rw [List.head?_append]; exact or_some_ne (by decide)))
  have h5 : ¬ ['L', 'L'] <:+: ("  `".data ++ (col.name ++ ("` ".data ++
      (convertSQLiteType col.type ++ (pkPart col ++ dfltPart col))))) :=
    not_pair_infix_append (by decide) h4 (Or.inl (by decide))
  rw [columnDef_decomp, if_neg hflag, List.nil_append]
  exact h5

/-- C7: the rendered column definition contains the clause NOT NULL iff
the notnull flag of the descriptor is set and its primary-key flag is not; in
particular a primary-key column never carries NOT NULL even when its
notnull flag is set.  The side conditions keep the letter pair "LL" out of
the text of the descriptor itself so the clause cannot occur accidentally. -/
theorem columnDef_notNull_iff (col : ColumnInfo)
    (hn : ¬ ['L', 'L'] <:+: col.name)
    (ht : ¬ ['L', 'L'] <:+: convertSQLiteType col.type)
    (hd : ∀ v, col.dflt_value = some v → ¬ ['L', 'L'] <:+: v) :
    " NOT NULL".data <:+: columnDef col ↔ col.notnull ≠ 0 ∧ col.pk = 0 := by
  constructor
  · intro h
    by_contra hflag
    exact noLL_columnDef hn ht hd hflag (List.IsInfix.trans (by decide) h)
  · intro hflag
    refine ⟨"  `".data ++ (col.name ++ ("` ".data ++ convertSQLiteType col.type)),
      pkPart col ++ dfltPart col, ?_⟩
    rw [columnDef_decomp, if_pos hflag]
    simp [List.append_assoc]

/-- Witness: a notnull non-primary-key TEXT column renders with NOT NULL,
and a primary-key column with the notnull flag set renders without it. -/
theorem columnDef_notNull_iff_witness :
    (" NOT NULL".data <:+: columnDef ⟨1, "name".data, "TEXT".data, 1, none, 0⟩) ∧
    ¬ (" NOT NULL".data <:+: columnDef ⟨0, "id".data, "INTEGER".data, 1, none, 1⟩) := by
  constructor
  · exact (columnDef_notNull_iff ⟨1, "name".data, "TEXT".data, 1, none, 0⟩
      (by decide) (by decide) (fun _ h => nomatch h)).mpr ⟨by decide, by decide⟩
  · intro h
    have := (columnDef_notNull_iff ⟨0, "id".data, "INTEGER".data, 1, none, 1⟩
      (by decide) (by decide) (fun _ h => nomatch h)).mp h
    exact absurd this.2 (by decide)

/-- C8: for a table with at least one row, the INSERT statements are one
per row, each rendered with the same column list, namely the key order of
the first row read, the values of every row listed in that order. -/
theorem getInsertStatements_first_row_columns (t : List Char) (r0 : Row)
    (rest : List Row) :
    getInsertStatements t (r0 :: rest) =
      (r0 :: rest).map (renderInsert t (rowKeys r0)) ∧
    (getInsertStatements t (r0 :: rest)).length = (r0 :: rest).length ∧
    ∀ s ∈ getInsertStatements t (r0 :: rest),
      ∃ r ∈ r0 :: rest, s = renderInsert t (rowKeys r0) r := by
  refine ⟨rfl, by simp [getInsertStatements], ?_⟩
  intro s hs
  rcases List.mem_map.mp hs with ⟨r, hr, hsr⟩
  exact ⟨r, hr, hsr.symm⟩

lemma mapExcept_cons_error {α β ε : Type} {f : α → Except ε β} {t : α} {ts : List α}
    {e : ε} (h : f t = .error e) : mapExcept f (t :: ts) = .error e := by
  unfold mapExcept
  rw [h]

lemma mapExcept_cons_tail_error {α β ε : Type} {f : α → Except ε β} {t : α}
    {ts : List α} {b : β} {e : ε} (h1 : f t = .ok b)
    (h2 : mapExcept f ts = .error e) : mapExcept f (t :: ts) = .error e := by
  unfold mapExcept
  rw [h1, h2]

lemma mapExcept_cons_ok {α β ε : Type} {f : α → Except ε β} {t : α} {ts : List α}
    {b : β} {bs : List β} (h1 : f t = .ok b) (h2 : mapExcept f ts = .ok bs) :
    mapExcept f (t :: ts) = .ok (b :: bs) := by
  unfold mapExcept
  rw [h1, h2]

lemma mapExcept_ok_forall {α β ε : Type} {f : α → Except ε β} :
    ∀ {l : List α} {ys : List β}, mapExcept f l = .ok ys →
      List.Forall₂ (fun x y => f x = .ok y) l ys
  | [], ys, h => by
    injection h with h
    subst h
    exact List.Forall₂.nil
  | t :: ts, ys, h => by
    cases hft : f t with
    | error e => rw [mapExcept_cons_error hft] at h; cases h
    | ok b =>
      cases hmt : mapExcept f ts with
      | error e => rw [mapExcept_cons_tail_error hft hmt] at h; cases h
      | ok bs =>
        rw [mapExcept_cons_ok hft hmt] at h
        injection h with h
        subst h
        exact List.Forall₂.cons hft (mapExcept_ok_forall hmt)

lemma forall₂_exists_of_mem {α β : Type} {P : α → β → Prop} {l : List α}
    {ys : List β} (h : List.Forall₂ P l ys) :
    ∀ {x}, x ∈ l → ∃ y, y ∈ ys ∧ P x y := by
  induction h with
  | nil => intro x hx; cases hx
  | cons h1 _ ih =>
    intro x hx
    rcases List.mem_cons.mp hx with rfl | hx
    · exact ⟨_, List.mem_cons_self _ _, h1⟩
    · obtain ⟨y, hy, hP⟩ := ih hx
      exact ⟨y, List.mem_cons_of_mem _ hy, hP⟩

lemma tableBlock_ok_reads {db : SourceDB} {t : List Char} {b : List (List Char)}
    (h : tableBlock db t = .ok b) :
    (∃ cols, db.columnInfo t = .ok cols) ∧ ∃ rows, db.tableRows t = .ok rows := by
  unfold tableBlock at h
  split at h
  · cases h
  · split at h
    · cases h
    · exact ⟨⟨_, by assumption⟩, ⟨_, by assumption⟩⟩

lemma exportStatements_eq_error_tables {db : SourceDB} {now e : List Char}
    (h : getTables db = .error e) : exportStatements db now = .error e := by
  unfold exportStatements
  rw [h]

lemma exportStatements_eq_error_blocks {db : SourceDB} {now e : List Char}
    {ts : List (List Char)} (h1 : getTables db = .ok ts)
    (h2 : mapExcept (tableBlock db) ts = .error e) :
    exportStatements db now = .error e := by
  simp only [exportStatements, h1, h2]

lemma exportStatements_eq_ok {db : SourceDB} {now : List Char}
    {ts : List (List Char)} {bs : List (List (List Char))}
    (h1 : getTables db = .ok ts) (h2 : mapExcept (tableBlock db) ts = .ok bs) :
    exportStatements db now = .ok (headerLines now ++ bs.flatten) := by
  simp only [exportStatements, h1, h2]

lemma exportStatements_ok_reads {db : SourceDB} {now : List Char}
    {stmts : List (List Char)} (h : exportStatements db now = .ok stmts) :
    ∃ ts, getTables db = .ok ts ∧ ∀ t ∈ ts,
      (∃ cols, db.columnInfo t = .ok cols) ∧ ∃ rows, db.tableRows t = .ok rows := by
  cases hts : getTables db with
  | error e => rw [exportStatements_eq_error_tables hts] at h; cases h
  | ok ts =>
    cases hmp : mapExcept (tableBlock db) ts with
    | error e => rw [exportStatements_eq_error_blocks hts hmp] at h; cases h
    | ok bs =>
      refine ⟨ts, rfl, ?_⟩
      intro t ht
      obtain ⟨b, _, hP⟩ := forall₂_exists_of_mem (mapExcept_ok_forall hmp) ht
      exact tableBlock_ok_reads hP

/-- C4: a failing schema or row read for any enumerated table makes the
whole run abort with an error and produce no file write, discarding every
line accumulated so far; a run performs at most one write, and a write
happens only when the schema and row reads of every enumerated table
succeeded. -/
theorem export_aborts_on_read_failure :
    (∀ (db : SourceDB) (now t : List Char) (ts : List (List Char)),
      getTables db = .ok ts → t ∈ ts →
      ¬ ((∃ cols, db.columnInfo t = .ok cols) ∧ ∃ rows, db.tableRows t = .ok rows) →
      (exportRun db now).1 = [] ∧ ∃ e, (exportRun db now).2 = .error e) ∧
    (∀ (db : SourceDB) (now : List Char), (exportRun db now).1.length ≤ 1) ∧
    (∀ (db : SourceDB) (now doc : List Char),
      (exportRun db now).1 = [doc] →
      ∃ ts, getTables db = .ok ts ∧ ∀ t ∈ ts,
        (∃ cols, db.columnInfo t = .ok cols) ∧ ∃ rows, db.tableRows t = .ok rows) := by
  refine ⟨?_, ?_, ?_⟩
  · intro db now t ts hts hmem hfail
    cases hst : exportStatements db now with
    | error e =>
      have hrun : exportRun db now = ([], .error e) := by
        unfold exportRun
        rw [hst]
      rw [hrun]
      exact ⟨rfl, e, rfl⟩
    | ok stmts =>
      exfalso
      obtain ⟨ts', hts', hall⟩ := exportStatements_ok_reads hst
      rw [hts] at hts'
      injection hts' with hts'
      subst hts'
      exact hfail (hall t hmem)
  · intro db now
    cases hst : exportStatements db now <;> simp [exportRun, hst]
  · intro db now doc h
    cases hst : exportStatements db now with
    | error e => simp [exportRun, hst] at h
    | ok stmts => exact exportStatements_ok_reads hst

/-- Witness: on a one-table database whose row scan fails, the run writes
nothing, and writes are always at most one. -/
theorem export_aborts_on_read_failure_witness :
    (exportRun ⟨.ok ["t".data], fun _ => .ok [], fun _ => .error "x".data⟩
        "now".data).1 = [] ∧
    (exportRun ⟨.ok ["t".data], fun _ => .ok [], fun _ => .error "x".data⟩
        "now".data).1.length ≤ 1 := by
  constructor
  · exact (export_aborts_on_read_failure.1
      ⟨.ok ["t".data], fun _ => .ok [], fun _ => .error "x".data⟩
      "now".data "t".data ["t".data] rfl (by decide)
      (fun hcon => by obtain ⟨rows, hrows⟩ := hcon.2; cases hrows)).1
  · exact export_aborts_on_read_failure.2.1
      ⟨.ok ["t".data], fun _ => .ok [], fun _ => .error "x".data⟩ "now".data

/-- C9: with the timestamp made an input, the exported lines are a
function of the source contents alone: two runs over the same database
with different timestamps agree on every line after the three header
lines, and each output is that shared body behind its own header, which
differ only in the generation-timestamp comment. -/
theorem export_deterministic_up_to_timestamp (db : SourceDB)
    (now₁ now₂ : List Char) (s₁ s₂ : List (List Char))
    (h₁ : exportStatements db now₁ = .ok s₁)
    (h₂ : exportStatements db now₂ = .ok s₂) :
    s₁ = headerLines now₁ ++ s₁.drop 3 ∧
    s₂ = headerLines now₂ ++ s₁.drop 3 := by
  cases hts : getTables db with
  | error e => rw [exportStatements_eq_error_tables hts] at h₁; cases h₁
  | ok ts =>
    cases hmp : mapExcept (tableBlock db) ts with
    | error e => rw [exportStatements_eq_error_blocks hts hmp] at h₁; cases h₁
    | ok bs =>
      rw [exportStatements_eq_ok hts hmp] at h₁ h₂
      injection h₁ with h₁
      injection h₂ with h₂
      subst h₁
      subst h₂
      exact ⟨rfl, rfl⟩

/-- Witness: two runs of the export over `wDb` with different timestamps
share the body after their headers. -/
theorem export_deterministic_up_to_timestamp_witness :
    headerLines "T1".data ++ wBody =
      headerLines "T1".data ++ (headerLines "T1".data ++ wBody).drop 3 ∧
    headerLines "T2".data ++ wBody =
      headerLines "T2".data ++ (headerLines "T1".data ++ wBody).drop 3 :=
  export_deterministic_up_to_timestamp wDb "T1".data "T2".data
    (headerLines "T1".data ++ wBody) (headerLines "T2".data ++ wBody) rfl rfl

lemma dropLiteral_append : ∀ (p s : List Char), dropLiteral p (p ++ s) = some s
  | [], _ => rfl
  | c :: p, s => by
    simp only [List.cons_append, dropLiteral, if_pos rfl]
    exact dropLiteral_append p s

lemma takeWhile_no_backtick : ∀ {t rest : List Char}, bquote ∉ t →
    (t ++ bquote :: rest).takeWhile (fun c => c ≠ bquote) = t
  | [], rest, _ => by simp
  | c :: t, rest, h => by
    have hc : c ≠ bquote := fun hcontra => h (hcontra ▸ List.mem_cons_self _ _)
    rw [List.cons_append, List.takeWhile_cons_of_pos (by simpa using hc),
      takeWhile_no_backtick (fun hm => h (List.mem_cons_of_mem _ hm))]

lemma getCreateTableSQL_decomp (t : List Char) (cols : List ColumnInfo) :
    getCreateTableSQL t cols =
      "CREATE TABLE `".data ++ (t ++ (bquote :: (" (\n".data ++
        (joinWith ",\n".data (cols.map columnDef) ++ "\n);".data)))) := by
  simp [getCreateTableSQL, List.append_assoc]
  all_goals decide

lemma renderInsert_decomp (t : List Char) (cols : List (List Char)) (r : Row) :
    renderInsert t cols r =
      "INSERT INTO `".data ++ (t ++ (bquote :: (" (".data ++
        (joinWith ", ".data (cols.map (fun c => "`".data ++ c ++ "`".data)) ++
          (") VALUES (".data ++
            (joinWith ", ".data (cols.map (fun c => renderCell (rowGet r c))) ++
              ");".data)))))) := by
  simp [renderInsert, List.append_assoc]
  all_goals decide

lemma parseCreateName_create {t : List Char} (cols : List ColumnInfo)
    (hbq : bquote ∉ t) : parseCreateName (getCreateTableSQL t cols) = some t := by
  rw [getCreateTableSQL_decomp]
  unfold parseCreateName
  rw [dropLiteral_append]
  exact congrArg some (takeWhile_no_backtick hbq)

lemma parseCreateName_table_comment (t : List Char) :
    parseCreateName ("-- Table: ".data ++ t) = none := rfl

lemma parseCreateName_data_comment (t : List Char) :
    parseCreateName ("-- Data for table: ".data ++ t) = none := rfl

lemma parseCreateName_banner :
    parseCreateName "-- Exported from SQLite database".data = none := rfl

lemma parseCreateName_timestamp (now : List Char) :
    parseCreateName ("-- Generated on ".data ++ now) = none := rfl

lemma parseCreateName_blank : parseCreateName [] = none := rfl

lemma parseCreateName_insert (t : List Char) (cols : List (List Char)) (r : Row) :
    parseCreateName (renderInsert t cols r) = none := rfl

lemma filterMap_parseCreateName_inserts (t : List Char) (rows : List Row) :
    (getInsertStatements t rows).filterMap parseCreateName = [] := by
  cases rows with
  | nil => rfl
  | cons r0 rest =>
    rw [List.filterMap_eq_nil_iff]
    intro s hs
    rcases List.mem_map.mp hs with ⟨r, -, rfl⟩
    exact parseCreateName_insert _ _ _

lemma tableBlock_ok_shape {db : SourceDB} {t : List Char} {b : List (List Char)}
    (hb : tableBlock db t = .ok b) :
    ∃ cols rows, db.columnInfo t = .ok cols ∧ db.tableRows t = .ok rows ∧
      b = ["-- Table: ".data ++ t, getCreateTableSQL t cols, []] ++
        (if 0 < (getInsertStatements t rows).length then
          ("-- Data for table: ".data ++ t) :: (getInsertStatements t rows ++ [[]])
        else []) := by
  unfold tableBlock at hb
  split at hb
  · cases hb
  · split at hb
    · cases hb
    · injection hb with hb
      exact ⟨_, _, by assumption, by assumption, hb.symm⟩

lemma tableBlock_zero_rows {db : SourceDB} {t : List Char} {cols : List ColumnInfo}
    (hcols : db.columnInfo t = .ok cols)
    (hrows : db.tableRows t = .ok ([] : List Row)) :
    tableBlock db t = .ok ["-- Table: ".data ++ t, getCreateTableSQL t cols, []] := by
  unfold tableBlock
  rw [hcols, hrows]
  simp [getInsertStatements]

lemma tableBlock_filterMap {db : SourceDB} {t : List Char} {b : List (List Char)}
    (hbq : bquote ∉ t) (hb : tableBlock db t = .ok b) :
    b.filterMap parseCreateName = [t] := by
  obtain ⟨cols, rows, -, -, rfl⟩ := tableBlock_ok_shape hb
  rw [List.filterMap_append]
  have h1 : (["-- Table: ".data ++ t, getCreateTableSQL t cols,
      ([] : List Char)]).filterMap parseCreateName = [t] := by
    rw [List.filterMap_cons_none (parseCreateName_table_comment t),
      List.filterMap_cons_some (parseCreateName_create cols hbq),
      List.filterMap_cons_none parseCreateName_blank,
      List.filterMap_nil]
  have h2 : (if 0 < (getInsertStatements t rows).length then
      ("-- Data for table: ".data ++ t) :: (getInsertStatements t rows ++ [[]])
    else []).filterMap parseCreateName = [] := by
    split_ifs
    · rw [List.filterMap_cons_none (parseCreateName_data_comment t),
        List.filterMap_append, filterMap_parseCreateName_inserts,
        List.filterMap_cons_none parseCreateName_blank,
        List.filterMap_nil, List.nil_append]
    · rfl
  rw [h1, h2, List.append_nil]

lemma forall₂_strengthen {α β : Type} {P Q : α → β → Prop} {l : List α}
    {ys : List β} (h : List.Forall₂ P l ys)
    (himp : ∀ x ∈ l, ∀ y, P x y → Q x y) : List.Forall₂ Q l ys := by
  induction h with
  | nil => exact List.Forall₂.nil
  | cons h1 _ ih =>
    exact List.Forall₂.cons
      (himp _ (List.mem_cons_self _ _) _ h1)
      (ih (fun x hx y hP => himp x (List.mem_cons_of_mem _ hx) y hP))

lemma filterMap_flatten_eq {ts : List (List Char)} {bs : List (List (List Char))}
    (h : List.Forall₂ (fun t b => b.filterMap parseCreateName = [t]) ts bs) :
    bs.flatten.filterMap parseCreateName = ts := by
  induction h with
  | nil => rfl
  | cons h1 _ ih =>
    rw [List.flatten_cons, List.filterMap_append, h1, ih]
    rfl

lemma getTables_ok {db : SourceDB} {master : List (List Char)}
    (hm : db.master = .ok master) :
    getTables db = .ok (List.insertionSort (· ≤ ·)
      (master.filter (fun n => ! likeSqliteWildcard n))) := by
  unfold getTables
  rw [hm]
  rfl

lemma likeSqliteWildcard_of_sqlite_marker {n : List Char}
    (h : "sqlite_".data <+: n) : likeSqliteWildcard n = true := by
  obtain ⟨rest, hrest⟩ := h
  subst hrest
  have h1 : ("sqlite_".data ++ rest).take 6 = "sqlite".data := by
    rw [List.take_append_of_le_length (by decide)]
    decide
  have h2 : 7 ≤ ("sqlite_".data ++ rest).length := by
    rw [List.length_append]
    have h3 : "sqlite_".data.length = 7 := rfl
    omega
  unfold likeSqliteWildcard
  rw [h1, decide_eq_true h2]
  rfl

lemma sorted_nodup_pairwise_lt {l : List (List Char)}
    (hs : List.Sorted (· ≤ ·) l) (hn : l.Nodup) :
    List.Pairwise (· < ·) l :=
  (List.Pairwise.and hs hn).imp (fun h => lt_of_le_of_ne h.1 h.2)

/-- C5: for a database whose reads succeed, the rendered lines contain
exactly one table-definition statement per user table (N of them for the
N user tables), the defined names appear in strictly lexicographic order,
and no defined name carries the reserved sqlite marker of the engine. -/
theorem export_table_definitions (db : SourceDB) (now : List Char)
    (master : List (List Char)) (stmts : List (List Char))
    (hm : db.master = .ok master)
    (hnd : master.Nodup)
    (hbq : ∀ n ∈ master, bquote ∉ n)
    (hok : exportStatements db now = .ok stmts) :
    stmts.filterMap parseCreateName =
      List.insertionSort (· ≤ ·) (master.filter (fun n => ! likeSqliteWildcard n)) ∧
    (stmts.filterMap parseCreateName).length =
      (master.filter (fun n => ! likeSqliteWildcard n)).length ∧
    List.Pairwise (· < ·) (stmts.filterMap parseCreateName) ∧
    ∀ n ∈ stmts.filterMap parseCreateName, ¬ "sqlite_".data <+: n := by
  have hgt := getTables_ok hm
  cases hmp : mapExcept (tableBlock db)
      (List.insertionSort (· ≤ ·) (master.filter (fun n => ! likeSqliteWildcard n))) with
  | error e => rw [exportStatements_eq_error_blocks hgt hmp] at hok; cases hok
  | ok bs =>
    rw [exportStatements_eq_ok hgt hmp] at hok
    injection hok with hok
    subst hok
    have hmem : ∀ n ∈ List.insertionSort (· ≤ ·)
        (master.filter (fun n => ! likeSqliteWildcard n)),
        n ∈ master ∧ likeSqliteWildcard n = false := by
      intro n hn
      have h2 := List.mem_filter.mp
        ((List.perm_insertionSort (· ≤ ·) _).mem_iff.mp hn)
      exact ⟨h2.1, by simpa using h2.2⟩
    have hfm : (headerLines now ++ bs.flatten).filterMap parseCreateName =
        List.insertionSort (· ≤ ·) (master.filter (fun n => ! likeSqliteWildcard n)) := by
      rw [List.filterMap_append]
      have hh : (headerLines now).filterMap parseCreateName = [] := by
        rw [headerLines, List.filterMap_cons_none parseCreateName_banner,
          List.filterMap_cons_none (parseCreateName_timestamp now),
          List.filterMap_cons_none parseCreateName_blank, List.filterMap_nil]
      rw [hh, List.nil_append]
      exact filterMap_flatten_eq (forall₂_strengthen (mapExcept_ok_forall hmp)
        (fun t ht b hP => tableBlock_filterMap (hbq t (hmem t ht).1) hP))
    refine ⟨hfm, ?_, ?_, ?_⟩
    · rw [hfm]
      exact (List.perm_insertionSort (· ≤ ·) _).length_eq
    · rw [hfm]
      exact sorted_nodup_pairwise_lt (List.sorted_insertionSort (· ≤ ·) _)
        ((List.perm_insertionSort (· ≤ ·) _).symm.nodup (hnd.filter _))
    · intro n hn hsq
      rw [hfm] at hn
      have hfalse := (hmem n hn).2
      rw [likeSqliteWildcard_of_sqlite_marker hsq] at hfalse
      cases hfalse

/-- Witness: over the two-table database the export defines exactly the
two user tables, in strictly ascending name order. -/
theorem export_table_definitions_witness :
    ((exportStatements wDb2 "T".data).toOption.getD []).filterMap parseCreateName =
      List.insertionSort (· ≤ ·)
        ((["b".data, "a".data]).filter (fun n => ! likeSqliteWildcard n)) ∧
    List.Pairwise (· < ·)
      (((exportStatements wDb2 "T".data).toOption.getD []).filterMap parseCreateName) := by
  have h := export_table_definitions wDb2 "T".data ["b".data, "a".data]
    ((exportStatements wDb2 "T".data).toOption.getD []) rfl (by decide) (by decide) rfl
  exact ⟨h.1, h.2.2.1⟩

lemma ne_of_take_ne {a b : List Char} (n : Nat) (h : a.take n ≠ b.take n) :
    a ≠ b :=
  fun e => h (congrArg (List.take n) e)

lemma ne_append_of_take_ne {p q a b : List Char} (n : Nat)
    (hn1 : n ≤ p.length) (hn2 : n ≤ q.length) (h : p.take n ≠ q.take n) :
    p ++ a ≠ q ++ b := by
  apply ne_of_take_ne n
  rw [List.take_append_of_le_length hn1, List.take_append_of_le_length hn2]
  exact h

lemma not_prefix_of_head_ne {c d : Char} {l₁ l₂ : List Char} (h : c ≠ d) :
    ¬ (c :: l₁) <+: (d :: l₂) :=
  fun hp => h (List.cons_prefix_cons.mp hp).1

lemma forall₂_exists_of_mem_right {α β : Type} {P : α → β → Prop} {l : List α}
    {ys : List β} (h : List.Forall₂ P l ys) :
    ∀ {y}, y ∈ ys → ∃ x, x ∈ l ∧ P x y := by
  induction h with
  | nil => intro y hy; cases hy
  | cons h1 _ ih =>
    intro y hy
    rcases List.mem_cons.mp hy with rfl | hy
    · exact ⟨_, List.mem_cons_self _ _, h1⟩
    · obtain ⟨x, hx, hP⟩ := ih hy
      exact ⟨x, List.mem_cons_of_mem _ hx, hP⟩

lemma marker_eq_of_backtick_free :
    ∀ {t t' rest : List Char}, bquote ∉ t → bquote ∉ t' →
      (t ++ [bquote]) <+: (t' ++ bquote :: rest) → t = t'
  | [], t', _, _, h', hp => by
    cases t' with
    | nil => rfl
    | cons c tt =>
      exfalso
      rw [List.nil_append, List.cons_append, List.cons_prefix_cons] at hp
      exact h' (by rw [hp.1]; exact List.mem_cons_self _ _)
  | c :: tt, t', rest, h, h', hp => by
    cases t' with
    | nil =>
      exfalso
      rw [List.nil_append, List.cons_append, List.cons_prefix_cons] at hp
      exact h (by rw [← hp.1]; exact List.mem_cons_self _ _)
    | cons c' tt' =>
      rw [List.cons_append, List.cons_append, List.cons_prefix_cons] at hp
      obtain ⟨rfl, hp⟩ := hp
      rw [marker_eq_of_backtick_free
        (fun hm => h (List.mem_cons_of_mem _ hm))
        (fun hm => h' (List.mem_cons_of_mem _ hm)) hp]

lemma dataComment_ne_table_comment {t t' : List Char} :
    "-- Data for table: ".data ++ t ≠ "-- Table: ".data ++ t' :=
  ne_append_of_take_ne 4 (by decide) (by decide) (by decide)

lemma dataComment_ne_create {t t' : List Char} {cols : List ColumnInfo} :
    "-- Data for table: ".data ++ t ≠ getCreateTableSQL t' cols := by
  rw [getCreateTableSQL_decomp]
  exact ne_append_of_take_ne 1 (by decide) (by decide) (by decide)

lemma dataComment_ne_blank {t : List Char} :
    "-- Data for table: ".data ++ t ≠ [] := fun h => nomatch h

lemma dataComment_ne_insert {t t' : List Char} {cols : List (List Char)} {r : Row} :
    "-- Data for table: ".data ++ t ≠ renderInsert t' cols r := by
  rw [renderInsert_decomp]
  exact ne_append_of_take_ne 1 (by decide) (by decide) (by decide)

lemma dataComment_ne_banner {t : List Char} :
    "-- Data for table: ".data ++ t ≠ "-- Exported from SQLite database".data := by
  apply ne_of_take_ne 4
  rw [List.take_append_of_le_length (by decide)]
  decide

lemma dataComment_ne_timestamp {t now : List Char} :
    "-- Data for table: ".data ++ t ≠ "-- Generated on ".data ++ now :=
  ne_append_of_take_ne 4 (by decide) (by decide) (by decide)

lemma dataComment_not_mem_block {db : SourceDB} {t t' : List Char}
    {b : List (List Char)} (hb : tableBlock db t' = .ok b)
    (hcase : t' ≠ t ∨ db.tableRows t' = .ok ([] : List Row)) :
    ("-- Data for table: ".data ++ t) ∉ b := by
  obtain ⟨cols, rows, hcols, hrows, rfl⟩ := tableBlock_ok_shape hb
  intro hmem
  rcases List.mem_append.mp hmem with hmem | hmem
  · simp only [List.mem_cons, List.not_mem_nil, or_false] at hmem
    rcases hmem with h | h | h
    · exact dataComment_ne_table_comment h
    · exact dataComment_ne_create h
    · exact dataComment_ne_blank h
  · rcases hcase with hne | hzero
    · revert hmem
      split_ifs
      · intro hmem
        rcases List.mem_cons.mp hmem with h | hmem
        · exact hne (List.append_cancel_left h).symm
        · rcases List.mem_append.mp hmem with h | h
          · cases rows with
            | nil => cases h
            | cons r0 rest =>
              rcases List.mem_map.mp h with ⟨r, -, hr⟩
              exact dataComment_ne_insert hr.symm
          · rcases List.mem_singleton.mp h with h
            exact dataComment_ne_blank (by assumption)
      · intro hmem
        cases hmem
    · rw [hrows] at hzero
      injection hzero with hzero
      subst hzero
      simp [getInsertStatements] at hmem

lemma needle_not_prefix_table_comment {t t' : List Char} :
    ¬ ("INSERT INTO `".data ++ (t ++ [bquote])) <+: ("-- Table: ".data ++ t') :=
  not_prefix_of_head_ne (by decide)

lemma needle_not_prefix_data_comment {t t' : List Char} :
    ¬ ("INSERT INTO `".data ++ (t ++ [bquote])) <+:
      ("-- Data for table: ".data ++ t') :=
  not_prefix_of_head_ne (by decide)

lemma needle_not_prefix_banner {t : List Char} :
    ¬ ("INSERT INTO `".data ++ (t ++ [bquote])) <+:
      "-- Exported from SQLite database".data :=
  not_prefix_of_head_ne (by decide)

lemma needle_not_prefix_timestamp {t now : List Char} :
    ¬ ("INSERT INTO `".data ++ (t ++ [bquote])) <+:
      ("-- Generated on ".data ++ now) :=
  not_prefix_of_head_ne (by decide)

lemma needle_not_prefix_blank {t : List Char} :
    ¬ ("INSERT INTO `".data ++ (t ++ [bquote])) <+: ([] : List Char) :=
  fun hp => nomatch (List.prefix_nil.mp hp)

lemma needle_not_prefix_create {t t' : List Char} {cols : List ColumnInfo} :
    ¬ ("INSERT INTO `".data ++ (t ++ [bquote])) <+: getCreateTableSQL t' cols := by
  rw [getCreateTableSQL_decomp]
  exact not_prefix_of_head_ne (by decide)

lemma needle_not_prefix_insert {t t' : List Char} {ks : List (List Char)} {r : Row}
    (hbt : bquote ∉ t) (hbt' : bquote ∉ t') (hne : t' ≠ t) :
    ¬ ("INSERT INTO `".data ++ (t ++ [bquote])) <+: renderInsert t' ks r := by
  rw [renderInsert_decomp]
  intro hp
  have hp2 := (List.prefix_append_right_inj "INSERT INTO `".data).mp hp
  exact hne (marker_eq_of_backtick_free hbt hbt' hp2).symm

lemma needle_not_prefix_in_block {db : SourceDB} {t t' : List Char}
    {b : List (List Char)} (hb : tableBlock db t' = .ok b)
    (hbt : bquote ∉ t) (hbt' : bquote ∉ t')
    (hcase : t' ≠ t ∨ db.tableRows t' = .ok ([] : List Row)) :
    ∀ s ∈ b, ¬ ("INSERT INTO `".data ++ (t ++ [bquote])) <+: s := by
  obtain ⟨cols, rows, hcols, hrows, rfl⟩ := tableBlock_ok_shape hb
  intro s hs
  rcases List.mem_append.mp hs with hs | hs
  · simp only [List.mem_cons, List.not_mem_nil, or_false] at hs
    rcases hs with rfl | rfl | rfl
    · exact needle_not_prefix_table_comment
    · exact needle_not_prefix_create
    · exact needle_not_prefix_blank
  · revert hs
    split_ifs with hlen
    · intro hs
      rcases List.mem_cons.mp hs with rfl | hs
      · exact needle_not_prefix_data_comment
      · rcases List.mem_append.mp hs with hs | hs
        · rcases hcase with hne | hzero
          · cases rows with
            | nil => cases hs
            | cons r0 rest =>
              rcases List.mem_map.mp hs with ⟨r, -, rfl⟩
              exact needle_not_prefix_insert hbt hbt' hne
          · rw [hrows] at hzero
            injection hzero with hzero
            subst hzero
            exact absurd hlen (by simp [getInsertStatements])
        · rcases List.mem_singleton.mp hs with rfl
          exact needle_not_prefix_blank
    · intro hs
      cases hs

/-- C6: for an enumerated table whose row scan returns zero rows, the
rendered lines contain its table-definition statement but no data-section
comment for it and no INSERT statement into it. -/
theorem export_zero_rows_no_inserts (db : SourceDB) (now t : List Char)
    (master : List (List Char)) (cols : List ColumnInfo)
    (stmts : List (List Char))
    (hm : db.master = .ok master)
    (hbq : ∀ n ∈ master, bquote ∉ n)
    (hmem : t ∈ master) (hsys : likeSqliteWildcard t = false)
    (hcols : db.columnInfo t = .ok cols)
    (hrows : db.tableRows t = .ok ([] : List Row))
    (hok : exportStatements db now = .ok stmts) :
    getCreateTableSQL t cols ∈ stmts ∧
    ("-- Data for table: ".data ++ t) ∉ stmts ∧
    ∀ s ∈ stmts, ¬ ("INSERT INTO `".data ++ (t ++ [bquote])) <+: s := by
  have hgt := getTables_ok hm
  have htin : t ∈ List.insertionSort (· ≤ ·)
      (master.filter (fun n => ! likeSqliteWildcard n)) := by
    rw [(List.perm_insertionSort (· ≤ ·) _).mem_iff]
    exact List.mem_filter.mpr ⟨hmem, by simp [hsys]⟩
  cases hmp : mapExcept (tableBlock db) (List.insertionSort (· ≤ ·)
      (master.filter (fun n => ! likeSqliteWildcard n))) with
  | error e => rw [exportStatements_eq_error_blocks hgt hmp] at hok; cases hok
  | ok bs =>
    rw [exportStatements_eq_ok hgt hmp] at hok
    injection hok with hok
    subst hok
    have hfa := mapExcept_ok_forall hmp
    refine ⟨?_, ?_, ?_⟩
    · obtain ⟨b, hbmem, hP⟩ := forall₂_exists_of_mem hfa htin
      rw [tableBlock_zero_rows hcols hrows] at hP
      injection hP with hP
      subst hP
      refine List.mem_append.mpr (Or.inr (List.mem_flatten.mpr ⟨_, hbmem, ?_⟩))
      simp
    · intro hmemd
      rcases List.mem_append.mp hmemd with h | h
      · simp only [headerLines, List.mem_cons, List.not_mem_nil, or_false] at h
        rcases h with h | h | h
        · exact dataComment_ne_banner h
        · exact dataComment_ne_timestamp h
        · exact dataComment_ne_blank h
      · obtain ⟨b, hbmem, hbx⟩ := List.mem_flatten.mp h
        obtain ⟨t', _, hP⟩ := forall₂_exists_of_mem_right hfa hbmem
        by_cases he : t' = t
        · subst he
          exact dataComment_not_mem_block hP (Or.inr hrows) hbx
        · exact dataComment_not_mem_block hP (Or.inl he) hbx
    · intro s hs hp
      rcases List.mem_append.mp hs with h | h
      · simp only [headerLines, List.mem_cons, List.not_mem_nil, or_false] at h
        rcases h with rfl | rfl | rfl
        · exact needle_not_prefix_banner hp
        · exact needle_not_prefix_timestamp hp
        · exact needle_not_prefix_blank hp
      · obtain ⟨b, hbmem, hbx⟩ := List.mem_flatten.mp h
        obtain ⟨t', ht', hP⟩ := forall₂_exists_of_mem_right hfa hbmem
        have hbt' : bquote ∉ t' := by
          have hff := (List.perm_insertionSort (· ≤ ·) _).mem_iff.mp ht'
          exact hbq t' (List.mem_filter.mp hff).1
        by_cases he : t' = t
        · subst he
          exact needle_not_prefix_in_block hP (hbq _ hmem) hbt' (Or.inr hrows) s hbx hp
        · exact needle_not_prefix_in_block hP (hbq _ hmem) hbt' (Or.inl he) s hbx hp

/-- Witness: over the one-table zero-row database, the output holds the
CREATE statement and no data comment for the table. -/
theorem export_zero_rows_no_inserts_witness :
    getCreateTableSQL "a".data [⟨0, "x".data, "TEXT".data, 0, none, 0⟩] ∈
      ((exportStatements wDb "T".data).toOption.getD []) ∧
    ("-- Data for table: ".data ++ "a".data) ∉
      ((exportStatements wDb "T".data).toOption.getD []) := by
  have h := export_zero_rows_no_inserts wDb "T".data "a".data ["a".data]
    [⟨0, "x".data, "TEXT".data, 0, none, 0⟩]
    ((exportStatements wDb "T".data).toOption.getD [])
    rfl (by decide) (by decide) (by decide) rfl rfl rfl
  exact ⟨h.1, h.2.1⟩

end DbConvert
